import Mathlib

/-!
# ManuZard: closed-form process formulas

A shallow embedding of the scalar formulas that drive the manufacturing scenes
(`src/src/components/*.jsx`) and proofs of the properties the scenes advertise.

Number model.  Every JavaScript number is read as an element of a linearly
ordered field `K`: the formulas that only use `+ - * /`, `Math.min`, `Math.max`
and comparisons are written once for every such `K`, so they can be evaluated
at `K = ℚ` and reasoned about at `K = ℝ`.  The formulas that mention `Math.PI`
or `Math.sqrt` live in `ℝ`.  Rounding of IEEE doubles is not modelled.
-/

/-! ## Definitions -/

namespace ForgingPress

variable {K : Type} [LinearOrderedField K]

/-- The constant `originalHeight` of `ForgingPress.jsx` line 187. -/
def originalHeight : K := 2.0

/-- The constant `originalRadius` of `ForgingPress.jsx` line 188. -/
def originalRadius : K := 0.5

/-- The value `originalVolume = Math.PI * originalRadius * originalRadius * originalHeight`
(line 189). -/
noncomputable def originalVolume : ℝ :=
  Real.pi * originalRadius * originalRadius * originalHeight

/-- The value `currentHeight = originalHeight * (1 - compression * 0.7)` (line 191). -/
def currentHeight (compression : K) : K :=
  originalHeight * (1 - compression * 0.7)

/-- The value `currentRadius = Math.sqrt(originalVolume / (Math.PI * currentHeight))`
(line 192). -/
noncomputable def currentRadius (compression : ℝ) : ℝ :=
  Real.sqrt (originalVolume / (Real.pi * currentHeight compression))

/-- The value `radialExpansion = currentRadius / originalRadius` (line 193). -/
noncomputable def radialExpansion (compression : ℝ) : ℝ :=
  currentRadius compression / originalRadius

end ForgingPress

namespace RollingMill

variable {K : Type} [LinearOrderedField K]

/-- The constant `h_in = 1.0`, the initial thickness (`RollingMill.jsx` line 157). -/
def h_in : K := 1.0

/-- The value `h_out = rollerGap`, the final thickness (line 158). -/
def h_out (rollerGap : K) : K := rollerGap

/-- The value `reduction = ((h_in - h_out) / h_in) * 100` (line 159). -/
def reduction (rollerGap : K) : K :=
  ((h_in - h_out rollerGap) / h_in) * 100

/-- The value `inputVelocity = speed` (line 248). -/
def inputVelocity (speed : K) : K := speed

/-- The value `outputVelocity = speed * (h_in / h_out)` (line 249). -/
def outputVelocity (speed rollerGap : K) : K :=
  speed * (h_in / h_out rollerGap)

end RollingMill

namespace ExtrusionPress

variable {K : Type} [LinearOrderedField K]

/-- The two options of the `mode` control (`ExtrusionPress.jsx` line 112). -/
inductive Mode where
  | Direct
  | Indirect
  deriving DecidableEq, Repr

/-- The flag `isDirect = mode === 'Direct'` (line 126). -/
def isDirect (mode : Mode) : Bool :=
  decide (mode = Mode.Direct)

/-- The constant `billetLength` (line 129). -/
def billetLength : K := 3.0

/-- The constant `billetRadius` (line 130). -/
def billetRadius : K := 1.0

/-- The constant `extrudateLength` (line 131). -/
def extrudateLength : K := 8.0

/-- The constant `extrudateRadius` (line 132). -/
def extrudateRadius : K := 0.35

/-- The value `areaRatio = (billetRadius * billetRadius) / (extrudateRadius * extrudateRadius)`
(line 135). -/
def areaRatio : K :=
  (billetRadius * billetRadius) / (extrudateRadius * extrudateRadius)

/-- The value `normalizedProgress = activeProgress / 100` (line 151). -/
def normalizedProgress (activeProgress : K) : K :=
  activeProgress / 100

/-- The value `ramPosition = -billetLength / 2 + normalizedProgress * billetLength`
(line 154). -/
def ramPosition (activeProgress : K) : K :=
  -billetLength / 2 + normalizedProgress activeProgress * billetLength

/-- The value `billetScale = 1 - normalizedProgress` (line 155). -/
def billetScale (activeProgress : K) : K :=
  1 - normalizedProgress activeProgress

/-- The value `extrudateScale = normalizedProgress * areaRatio` (line 156). -/
def extrudateScale (activeProgress : K) : K :=
  normalizedProgress activeProgress * areaRatio

/-- The constant `basePressure` (line 159). -/
def basePressure : K := 250

/-- The value `frictionFactor = isDirect ? 100 : 0` (line 160). -/
def frictionFactor (mode : Mode) : K :=
  if isDirect mode then 100 else 0

/-- The value `lengthRemaining = billetLength * (1 - normalizedProgress)` (line 161). -/
def lengthRemaining (activeProgress : K) : K :=
  billetLength * (1 - normalizedProgress activeProgress)

/-- The value `ramForce = basePressure + frictionFactor * lengthRemaining` (line 162). -/
def ramForce (mode : Mode) (activeProgress : K) : K :=
  basePressure + frictionFactor mode * lengthRemaining activeProgress

/-- The outline of the T-shaped die opening, in the order of the `moveTo` / `lineTo`
calls of lines 169 to 177 (the last point closes the path). -/
def tProfile : List (K × K) :=
  [(-0.3, 0.3), (0.3, 0.3), (0.3, 0.1), (0.1, 0.1), (0.1, -0.3),
   (-0.1, -0.3), (-0.1, 0.1), (-0.3, 0.1), (-0.3, 0.3)]

/-- Twice the signed area swept by a path, summed edge by edge (shoelace formula). -/
def shoelace : List (K × K) → K
  | p :: q :: rest => (p.1 * q.2 - q.1 * p.2) + shoelace (q :: rest)
  | _ => 0

/-- The area enclosed by a closed path. -/
def polygonArea (path : List (K × K)) : K :=
  |shoelace path| / 2

/-- The y-scale of the billet mesh, `isDirect ? billetScale : 1` (line 218). -/
def billetMeshScale (mode : Mode) (activeProgress : K) : K :=
  if isDirect mode then billetScale activeProgress else 1

/-- The volume of the billet cylinder before extrusion starts: `cylinderGeometry` with
radius `billetRadius` and height `billetLength` (line 221). -/
noncomputable def initialBilletVolume : ℝ :=
  Real.pi * billetRadius ^ 2 * billetLength

/-- The volume of the rendered billet: the cylinder of line 221 scaled along its axis by
the mesh scale of line 218. -/
noncomputable def billetVolume (mode : Mode) (activeProgress : ℝ) : ℝ :=
  Real.pi * billetRadius ^ 2 * billetLength * billetMeshScale mode activeProgress

/-- The length of the rendered extrudate, `extrudateScale * extrudateLength`: the geometry
of depth `extrudateLength` (line 181) scaled along the extrusion axis by `extrudateScale`
(line 317). -/
def extrudateRenderedLength (activeProgress : K) : K :=
  extrudateScale activeProgress * extrudateLength

/-- The volume of the rendered extrudate: T-profile cross-section times rendered length. -/
def extrudateVolume (activeProgress : K) : K :=
  polygonArea tProfile * extrudateRenderedLength activeProgress

end ExtrusionPress

namespace SandCastingSystem

variable {K : Type} [LinearOrderedField K]

/-- The value `pouringPhase = Math.min(activeProgress / 30, 1)` (`SandCastingSystem.jsx`
line 165). -/
def pouringPhase (activeProgress : K) : K :=
  min (activeProgress / 30) 1

/-- The value `solidificationPhase = Math.max((activeProgress - 30) / 70, 0)` (line 166). -/
def solidificationPhase (activeProgress : K) : K :=
  max ((activeProgress - 30) / 70) 0

/-- The local `coolingProgress = Math.min(solidificationPhase * coolRate, 1)` computed by
both `getMaterialColor` (line 187) and `getEmissiveIntensity` (line 197). -/
def coolingProgress (solidificationPhase coolRate : K) : K :=
  min (solidificationPhase * coolRate) 1

/-- The function `getEmissiveIntensity`, `(1 - coolingProgress) * 2` (lines 196 to 199). -/
def getEmissiveIntensity (solidificationPhase coolRate : K) : K :=
  (1 - coolingProgress solidificationPhase coolRate) * 2

/-- The constant `COOL_RATE_SPRUE` (line 202). -/
def COOL_RATE_SPRUE : K := 2.5

/-- The constant `COOL_RATE_RUNNER` (line 203). -/
def COOL_RATE_RUNNER : K := 2.0

/-- The constant `COOL_RATE_PART` (line 204). -/
def COOL_RATE_PART : K := 0.5

/-- The constant `COOL_RATE_RISER` (line 205). -/
def COOL_RATE_RISER : K := 0.8

end SandCastingSystem

namespace WeldingSimulator

variable {K : Type} [LinearOrderedField K]

/-- A point of the scene (`THREE.Vector3`). -/
structure Vector3 (K : Type) where
  x : K
  y : K
  z : K

/-- The three values of `beadQuality`: the strings `burn-through`, `undercut` and `good`
(`WeldingSimulator.jsx` lines 242, 246, 250). -/
inductive BeadQuality where
  | burnThrough
  | undercut
  | good
  deriving DecidableEq, Repr

/-- The record built as `newBead` (lines 253 to 259). -/
structure Bead (K : Type) where
  position : Vector3 K
  size : K
  temperature : K
  quality : BeadQuality
  id : K

/-- The React state read and written by `addWeldBead`: `weldBeads` (line 138) and
`lastPosition` (line 140). -/
structure WeldState (K : Type) where
  weldBeads : List (Bead K)
  lastPosition : Vector3 K

/-- The constant `MAX_BEADS` (line 163). -/
def MAX_BEADS : ℕ := 500

/-- The constant `optimalDistance = 0.1 * weldSpeed` (line 235). -/
def optimalDistance (weldSpeed : K) : K :=
  0.1 * weldSpeed

/-- The record `newBead` of `addWeldBead`: the defect detection of lines 237 to 251
followed by the object literal of lines 253 to 259.  The argument `distance` is the value
of `position.distanceTo(lastPosition)` and `id` the value of `Math.random()`. -/
def newBead (distance weldSpeed : K) (position : Vector3 K) (id : K) : Bead K :=
  if distance < optimalDistance weldSpeed * 0.5 then
    { position := position, size := 0.15, temperature := 1.0,
      quality := BeadQuality.burnThrough, id := id }
  else if distance > optimalDistance weldSpeed * 2 then
    { position := position, size := 0.05, temperature := 1.0,
      quality := BeadQuality.undercut, id := id }
  else
    { position := position, size := 0.1, temperature := 1.0,
      quality := BeadQuality.good, id := id }

/-- The callback `addWeldBead` (lines 229 to 263).  `distanceTo` stands for the library
method `Vector3.distanceTo`, `seenLength` for the value of `weldBeads.length` captured by
the callback, and `id` for the value of `Math.random()`.  The two `setWeldBeads` updaters
(drop the oldest bead, then append) are applied in order to the current list. -/
def addWeldBead (distanceTo : Vector3 K → Vector3 K → K) (weldSpeed : K) (seenLength : ℕ)
    (st : WeldState K) (position : Vector3 K) (id : K) : WeldState K :=
  let afterTrim := if seenLength ≥ MAX_BEADS then st.weldBeads.drop 1 else st.weldBeads
  let distance := distanceTo position st.lastPosition
  { weldBeads := afterTrim ++ [newBead distance weldSpeed position id],
    lastPosition := position }

/-- The per-frame cooling of lines 220 to 225: every bead keeps its fields except
`temperature`, which becomes `Math.max(0, temperature - delta * 0.3)`. -/
def coolBeads (delta : K) (st : WeldState K) : WeldState K :=
  { st with
    weldBeads := st.weldBeads.map
      (fun bead => { bead with temperature := max 0 (bead.temperature - delta * 0.3) }) }

/-- The button `clearBeads` (lines 155 to 157): `setWeldBeads([])`. -/
def clearBeads (st : WeldState K) : WeldState K :=
  { st with weldBeads := [] }

/-- The events that change the bead list. -/
inductive WeldEvent (K : Type) where
  | add (weldSpeed : K) (position : Vector3 K) (id : K)
  | cool (delta : K)
  | clear

/-- One event applied to the state; `addWeldBead` sees the current list length. -/
def step (distanceTo : Vector3 K → Vector3 K → K) (st : WeldState K) :
    WeldEvent K → WeldState K
  | WeldEvent.add weldSpeed position id =>
      addWeldBead distanceTo weldSpeed st.weldBeads.length st position id
  | WeldEvent.cool delta => coolBeads delta st
  | WeldEvent.clear => clearBeads st

/-- The initial state: `useState([])` and `useState(new THREE.Vector3())`
(lines 138 and 140). -/
def initialState : WeldState K :=
  { weldBeads := [], lastPosition := { x := 0, y := 0, z := 0 } }

/-- The state after a sequence of events, starting from the initial state. -/
def run (distanceTo : Vector3 K → Vector3 K → K) (events : List (WeldEvent K)) :
    WeldState K :=
  events.foldl (step distanceTo) initialState

end WeldingSimulator

namespace BendingStation

variable {K : Type} [LinearOrderedField K]

/-- The value `bendingPhase = Math.min(progress * 2, 1)` (`SheetMetalLab.jsx` line 141). -/
def bendingPhase (progress : K) : K :=
  min (progress * 2) 1

/-- The value `springbackPhase = Math.max((progress - 0.5) * 2, 0)` (line 142). -/
def springbackPhase (progress : K) : K :=
  max ((progress - 0.5) * 2) 0

/-- The value `targetBendAngle = bendingPhase * (Math.PI / 4)` (line 145). -/
noncomputable def targetBendAngle (progress : ℝ) : ℝ :=
  bendingPhase progress * (Real.pi / 4)

/-- The value `springbackAngle = springbackPhase * 0.087`, in radians (line 146). -/
def springbackAngle (progress : K) : K :=
  springbackPhase progress * 0.087

/-- The value `finalBendAngle = targetBendAngle - springbackAngle` (line 147). -/
noncomputable def finalBendAngle (progress : ℝ) : ℝ :=
  targetBendAngle progress - springbackAngle progress

/-- The number shown by the SPRINGBACK label, `springbackAngle * 180 / Math.PI`
(line 253), before rounding to one decimal. -/
noncomputable def springbackDegrees (progress : ℝ) : ℝ :=
  springbackAngle progress * 180 / Real.pi

end BendingStation

namespace RollingMill

variable {K : Type} [LinearOrderedField K]

/-- The constant `rollerX = 0`, the roller position in local space (`RollingMill.jsx`
line 198). -/
def rollerX : K := 0

/-- The constant `transitionWidth = 0.5`, the half-width of the deformation zone
(line 199). -/
def transitionWidth : K := 0.5

/-- The value `worldX = x + sheetPosition` (line 203). -/
def worldX (x sheetPosition : K) : K := x + sheetPosition

/-- The value `interpolatedThickness = h_in + (h_out - h_in) * t` with
`t = (worldX - (rollerX - transitionWidth)) / (2 * transitionWidth)` (lines 216 and 217). -/
def interpolatedThickness (rollerGap wx : K) : K :=
  h_in + (h_out rollerGap - h_in) * ((wx - (rollerX - transitionWidth)) / (2 * transitionWidth))

/-- The new y-coordinate written to `positions[i + 1]` for a vertex with original local
coordinates `x` and `y` (lines 202 to 219). -/
def displacedY (rollerGap sheetPosition x y : K) : K :=
  if worldX x sheetPosition < rollerX - transitionWidth then
    (y / |y|) * (h_in / 2)
  else if worldX x sheetPosition > rollerX + transitionWidth then
    (y / |y|) * (h_out rollerGap / 2)
  else
    (y / |y|) * (interpolatedThickness rollerGap (worldX x sheetPosition) / 2)

/-- The thickness that the three branches of lines 208 to 219 assign at world position
`wx`: the factor that multiplies `(y / |y|) / 2` in `displacedY`. -/
def thickness (rollerGap wx : K) : K :=
  if wx < rollerX - transitionWidth then h_in
  else if wx > rollerX + transitionWidth then h_out rollerGap
  else interpolatedThickness rollerGap wx

/-- The radius of both rollers, the first two arguments of `cylinderGeometry`
(lines 266 and 272). -/
def rollerRadius : K := 0.4

/-- The height of the top roller axis, `h_out / 2 + 0.4` (line 265). -/
def topRollerY (rollerGap : K) : K := h_out rollerGap / 2 + 0.4

/-- The height of the bottom roller axis, `-(h_out / 2 + 0.4)` (line 271). -/
def bottomRollerY (rollerGap : K) : K := -(h_out rollerGap / 2 + 0.4)

/-- The clearance between the facing surfaces of the rollers: lowest point of the top
roller minus highest point of the bottom roller. -/
def rollerClearance (rollerGap : K) : K :=
  (topRollerY rollerGap - rollerRadius) - (bottomRollerY rollerGap + rollerRadius)

end RollingMill

namespace BarrelledCylinder

/-- The library function `Math.atan2(z, x)`: the angle in `(-π, π]` of the point `(x, z)`,
which is the argument of the complex number `x + z i` (and `0` at the origin). -/
noncomputable def atan2 (z x : ℝ) : ℝ :=
  Complex.arg ⟨x, z⟩

/-- The value `normalizedY = y / (height / 2)` (`ForgingPress.jsx` line 98). -/
def normalizedY {K : Type} [LinearOrderedField K] (height y : K) : K :=
  y / (height / 2)

/-- The value `barrelFactor = 1 - Math.abs(normalizedY)` (line 101). -/
def barrelFactor {K : Type} [LinearOrderedField K] (height y : K) : K :=
  1 - |normalizedY height y|

/-- The value `expansionDueToBarrel = compression * barrelFactor * 0.3` (line 102). -/
def expansionDueToBarrel {K : Type} [LinearOrderedField K] (compression height y : K) : K :=
  compression * barrelFactor height y * 0.3

/-- The value `distance = Math.sqrt(x * x + z * z)` (line 105). -/
noncomputable def distance (x z : ℝ) : ℝ :=
  Real.sqrt (x * x + z * z)

/-- The value `newRadius = distance * (1 + expansionDueToBarrel)` (line 108). -/
noncomputable def newRadius (compression height x y z : ℝ) : ℝ :=
  distance x z * (1 + expansionDueToBarrel compression height y)

/-- One iteration of the loop of lines 92 to 113: the position written for the vertex whose
original position is `(x, y, z)`.  The y-coordinate is never written, and a vertex with
`distance ≤ 0.001` is not written at all, so it stays at its original position. -/
noncomputable def displace (compression height : ℝ) (v : ℝ × ℝ × ℝ) : ℝ × ℝ × ℝ :=
  if distance v.1 v.2.2 > 0.001 then
    (Real.cos (atan2 v.2.2 v.1) * newRadius compression height v.1 v.2.1 v.2.2,
      v.2.1,
      Real.sin (atan2 v.2.2 v.1) * newRadius compression height v.1 v.2.1 v.2.2)
  else v

end BarrelledCylinder

namespace FrictionHeatParticles

/-- The constant `particleCount = 40` (`ExtrusionPress.jsx` line 49). -/
def particleCount : ℕ := 40

/-- The particle number `i` of the buffer built by `useMemo` (lines 53 to 59); `r1` and `r2`
are the values returned by the two calls of `Math.random()`. -/
noncomputable def initialParticle (i : ℕ) (r1 r2 : ℝ) : ℝ × ℝ × ℝ :=
  (Real.cos (((i : ℝ) / (particleCount : ℝ)) * Real.pi * 2) * (0.9 + r1 * 0.2),
    (r2 - 0.5) * 2,
    Real.sin (((i : ℝ) / (particleCount : ℝ)) * Real.pi * 2) * (0.9 + r1 * 0.2))

/-- The buffer `positions` of lines 51 to 61, one triple per particle; `rand n` is the value
of the call number `n` of `Math.random()`. -/
noncomputable def initialPositions (rand : ℕ → ℝ) : List (ℝ × ℝ × ℝ) :=
  (List.range particleCount).map
    (fun i => initialParticle i (rand (2 * i)) (rand (2 * i + 1)))

/-- The body of the loop of lines 66 to 71 for one particle: `y += delta * 0.5`, then
`y = -1.5` when `y > 1.5`; `x` and `z` are not written. -/
def riseParticle {K : Type} [LinearOrderedField K] (delta : K) (v : K × K × K) : K × K × K :=
  (v.1, if v.2.1 + delta * 0.5 > 1.5 then -1.5 else v.2.1 + delta * 0.5, v.2.2)

/-- The callback of `useFrame` (lines 63 to 74): when `active`, the loop updates the
particles with index below `particleCount`; otherwise nothing is written. -/
def frame {K : Type} [LinearOrderedField K] (active : Bool) (delta : K)
    (positions : List (K × K × K)) : List (K × K × K) :=
  if active then
    (positions.take particleCount).map (riseParticle delta) ++ positions.drop particleCount
  else positions

/-- The buffer after a sequence of frames, each with its `active` flag and its `delta`. -/
def runFrames {K : Type} [LinearOrderedField K] (frames : List (Bool × K))
    (positions : List (K × K × K)) : List (K × K × K) :=
  frames.foldl (fun ps f => frame f.1 f.2 ps) positions

end FrictionHeatParticles

namespace SpinningStation

variable {K : Type} [LinearOrderedField K]

/-- The constant `segments = 20` (`SheetMetalLab.jsx` line 272). -/
def segments : ℕ := 20

/-- The constant `flatRadius = 1.5` (line 278). -/
def flatRadius : K := 1.5

/-- The value `coneRadius = 1.5 * (1 - t * 0.6)` (line 279). -/
def coneRadius (t : K) : K := 1.5 * (1 - t * 0.6)

/-- The constant `height = 0` of the flat disk (line 280). -/
def height : K := 0

/-- The value `coneHeight = t * 2` (line 281). -/
def coneHeight (t : K) : K := t * 2

/-- The value `currentRadius = flatRadius + (coneRadius - flatRadius) * progress`
(line 284). -/
def currentRadius (progress t : K) : K :=
  flatRadius + (coneRadius t - flatRadius) * progress

/-- The value `currentHeight = height + (coneHeight - height) * progress` (line 285). -/
def currentHeight (progress t : K) : K :=
  height + (coneHeight t - height) * progress

/-- The profile point pushed for the parameter `t` (line 287). -/
def profilePoint (progress t : K) : K × K :=
  (currentRadius progress t, currentHeight progress t)

/-- The list `points` handed to `LatheGeometry`: one profile point for each
`i = 0, ..., segments`, at `t = i / segments` (lines 274 to 288). -/
def lathePoints (progress : K) : List (K × K) :=
  (List.range (segments + 1)).map
    (fun (i : ℕ) => profilePoint progress ((i : K) / (segments : K)))

/-- The value `rollerT = (Math.sin(elapsedTime * 1.5) + 1) / 2` (line 298). -/
noncomputable def rollerT (elapsedTime : ℝ) : ℝ :=
  (Real.sin (elapsedTime * 1.5) + 1) / 2

/-- The value `rollerRadius = 1.5 - rollerT * 0.9 * progress` (line 299). -/
def rollerRadius (progress rollerT : K) : K :=
  1.5 - rollerT * 0.9 * progress

/-- The value `rollerHeight = rollerT * 2 * progress` (line 300). -/
def rollerHeight (progress rollerT : K) : K :=
  rollerT * 2 * progress

end SpinningStation

/-! ## Theorems -/

namespace ForgingPress

/-- The deformed height is strictly positive on the slider range of `compression`. -/
lemma currentHeight_pos {K : Type} [LinearOrderedField K] (c : K) (h1 : c ≤ 1) :
    0 < currentHeight c := by
  unfold currentHeight originalHeight
  norm_num
  linarith

/-- C1. Volume conservation of the forged cylinder: for every compression `c` in `[0,1]`
the volume `π * currentRadius² * currentHeight` of the deformed workpiece equals the
original volume, which is `π * 0.5² * 2.0`. -/
theorem volume_conserved (c : ℝ) (h0 : 0 ≤ c) (h1 : c ≤ 1) :
    Real.pi * currentRadius c ^ 2 * currentHeight c = originalVolume ∧
      originalVolume = Real.pi * 0.5 ^ 2 * 2.0 := by
  have _ := h0
  have hh : (0 : ℝ) < currentHeight c := currentHeight_pos c h1
  have hpi := Real.pi_pos
  have hV : (0 : ℝ) ≤ originalVolume := by
    unfold originalVolume originalRadius originalHeight
    positivity
  refine ⟨?_, ?_⟩
  · unfold currentRadius
    rw [Real.sq_sqrt (div_nonneg hV (by positivity))]
    field_simp
    ring
  · unfold originalVolume originalRadius originalHeight
    ring

/-- Witness for C1 at half compression. -/
theorem volume_conserved_witness :
    ((0 : ℝ) ≤ 1 / 2 ∧ (1 / 2 : ℝ) ≤ 1) ∧
      (Real.pi * currentRadius (1 / 2) ^ 2 * currentHeight (1 / 2 : ℝ) = originalVolume ∧
        originalVolume = Real.pi * 0.5 ^ 2 * 2.0) :=
  ⟨⟨by norm_num, by norm_num⟩, volume_conserved (1 / 2) (by norm_num) (by norm_num)⟩

end ForgingPress

namespace RollingMill

/-- C2. Exit velocity of the rolling mill: for every speed and every roller gap in
`[0.2, 0.8]`, `outputVelocity = inputVelocity * h_in / h_out`, the flow product
`velocity * thickness` is the same on both sides of the rollers, and for a positive
speed the exit velocity is strictly larger than the entry velocity. -/
theorem exit_velocity {K : Type} [LinearOrderedField K] (speed rollerGap : K)
    (hlo : 0.2 ≤ rollerGap) (hhi : rollerGap ≤ 0.8) :
    outputVelocity speed rollerGap = inputVelocity speed * h_in / h_out rollerGap ∧
      inputVelocity speed * h_in = outputVelocity speed rollerGap * h_out rollerGap ∧
      (0 < speed → inputVelocity speed < outputVelocity speed rollerGap) := by
  have hg : (0 : K) < rollerGap := lt_of_lt_of_le (by norm_num) hlo
  have hg1 : rollerGap < 1 := lt_of_le_of_lt hhi (by norm_num)
  unfold outputVelocity inputVelocity h_in h_out
  refine ⟨by ring, ?_, ?_⟩
  · field_simp
  · intro hs
    have h1 : (1 : K) < 1.0 / rollerGap := by
      rw [lt_div_iff₀ hg]
      norm_num
      exact hg1
    calc speed = speed * 1 := by ring
      _ < speed * (1.0 / rollerGap) := mul_lt_mul_of_pos_left h1 hs

/-- Witness for C2 at the default controls `speed = 1.0`, `rollerGap = 0.4`. -/
theorem exit_velocity_witness :
    ((0.2 : ℚ) ≤ 0.4 ∧ (0.4 : ℚ) ≤ 0.8) ∧
      (outputVelocity (1.0 : ℚ) 0.4 = inputVelocity 1.0 * h_in / h_out 0.4 ∧
        inputVelocity (1.0 : ℚ) * h_in = outputVelocity 1.0 0.4 * h_out 0.4 ∧
        ((0 : ℚ) < 1.0 → inputVelocity (1.0 : ℚ) < outputVelocity 1.0 0.4)) :=
  ⟨⟨by norm_num, by norm_num⟩, exit_velocity 1.0 0.4 (by norm_num) (by norm_num)⟩

end RollingMill

namespace ExtrusionPress

/-- In Direct mode the wall friction factor is `100`. -/
lemma frictionFactor_Direct {K : Type} [LinearOrderedField K] :
    (frictionFactor Mode.Direct : K) = 100 := rfl

/-- In Indirect mode there is no wall friction. -/
lemma frictionFactor_Indirect {K : Type} [LinearOrderedField K] :
    (frictionFactor Mode.Indirect : K) = 0 := rfl

/-- The T-shaped die opening has cross-section area `0.20`. -/
lemma tProfile_area {K : Type} [LinearOrderedField K] :
    polygonArea (tProfile : List (K × K)) = 0.20 := by
  simp only [polygonArea, tProfile, shoelace]
  norm_num [abs_of_neg]

/-- The rendered volumes in Direct mode as a function of the progress: the total exceeds
the initial billet volume by a positive multiple of the progress. -/
lemma direct_volume_excess (p : ℝ) :
    billetVolume Mode.Direct p + extrudateVolume p - initialBilletVolume =
      p / 100 * (0.20 * (8.0 / 0.1225) - 3.0 * Real.pi) := by
  unfold extrudateVolume
  rw [tProfile_area]
  simp only [billetVolume, initialBilletVolume, billetMeshScale, isDirect, extrudateRenderedLength,
    extrudateScale, billetScale, normalizedProgress, areaRatio, billetRadius, billetLength,
    extrudateLength, extrudateRadius, decide_True, if_true]
  norm_num
  ring

/-- C3 (evaluation at the failing input). In Direct mode at progress `50` the rendered
billet volume plus the rendered extrudate volume differs from the initial billet volume
`π * 1.0² * 3.0`: the rendered total is larger. -/
theorem volume_not_conserved_at_half :
    billetVolume Mode.Direct 50 + extrudateVolume (50 : ℝ) ≠ Real.pi * 1.0 ^ 2 * 3.0 ∧
      Real.pi * 1.0 ^ 2 * 3.0 < billetVolume Mode.Direct 50 + extrudateVolume (50 : ℝ) := by
  have h := direct_volume_excess 50
  have hpi := Real.pi_le_four
  have hinit : initialBilletVolume = Real.pi * 1.0 ^ 2 * 3.0 := by
    simp only [initialBilletVolume, billetRadius, billetLength]
  have hlt : Real.pi * 1.0 ^ 2 * 3.0 <
      billetVolume Mode.Direct 50 + extrudateVolume (50 : ℝ) := by
    rw [← hinit]
    have : (0 : ℝ) < 50 / 100 * (0.20 * (8.0 / 0.1225) - 3.0 * Real.pi) := by
      norm_num
      linarith
    linarith
  exact ⟨ne_of_gt hlt, hlt⟩

/-- C4 (counterexample). At progress `0` the Indirect ram force is `250` while `0.7` times
the Direct ram force is `385`. -/
theorem indirect_force_not_seventy_percent :
    ramForce Mode.Indirect (0 : ℚ) = 250 ∧ 0.7 * ramForce Mode.Direct (0 : ℚ) = 385 ∧
      ramForce Mode.Indirect (0 : ℚ) ≠ 0.7 * ramForce Mode.Direct (0 : ℚ) := by
  simp only [ramForce, frictionFactor_Direct, frictionFactor_Indirect, lengthRemaining,
    normalizedProgress, basePressure, billetLength]
  norm_num

/-- C4 (amended). For every progress `p` in `[0,100]` the Indirect ram force is the constant
`basePressure = 250`, the Direct ram force is `250 + 100 * lengthRemaining`, so Indirect
never needs more force than Direct, and Indirect equals `0.7` times Direct exactly at
`p = 450 / 7`. -/
theorem indirect_force_constant {K : Type} [LinearOrderedField K] (p : K)
    (h0 : 0 ≤ p) (h100 : p ≤ 100) :
    ramForce Mode.Indirect p = 250 ∧
      ramForce Mode.Direct p = 250 + 100 * lengthRemaining p ∧
      ramForce Mode.Indirect p ≤ ramForce Mode.Direct p ∧
      (ramForce Mode.Indirect p = 0.7 * ramForce Mode.Direct p ↔ p = 450 / 7) := by
  have _ := h0
  simp only [ramForce, frictionFactor_Direct, frictionFactor_Indirect, lengthRemaining,
    normalizedProgress, basePressure, billetLength]
  refine ⟨by norm_num, by norm_num, ?_, ?_⟩
  · norm_num
    linarith
  · norm_num
    constructor
    · intro h
      field_simp at h ⊢
      linarith
    · intro h
      subst h
      norm_num

/-- Witness for the amended C4 at progress `50`. -/
theorem indirect_force_constant_witness :
    ((0 : ℚ) ≤ 50 ∧ (50 : ℚ) ≤ 100) ∧
      (ramForce Mode.Indirect (50 : ℚ) = 250 ∧
        ramForce Mode.Direct (50 : ℚ) = 250 + 100 * lengthRemaining 50 ∧
        ramForce Mode.Indirect (50 : ℚ) ≤ ramForce Mode.Direct 50 ∧
        (ramForce Mode.Indirect (50 : ℚ) = 0.7 * ramForce Mode.Direct 50 ↔
          (50 : ℚ) = 450 / 7)) :=
  ⟨⟨by norm_num, by norm_num⟩, indirect_force_constant 50 (by norm_num) (by norm_num)⟩

end ExtrusionPress

namespace SandCastingSystem

/-- The cooling progress is monotone in the cooling rate for a nonnegative phase. -/
lemma coolingProgress_mono_rate {K : Type} [LinearOrderedField K] (s a b : K)
    (hs : 0 ≤ s) (hab : a ≤ b) : coolingProgress s a ≤ coolingProgress s b :=
  min_le_min (mul_le_mul_of_nonneg_left hab hs) le_rfl

/-- C5 (counterexample). At the end of the process (`activeProgress = 100`, so
`solidificationPhase = 1`) the riser has cooling progress `0.8` and the part `0.5`: the
riser is not behind the part. -/
theorem riser_ahead_of_part_at_end :
    solidificationPhase (100 : ℚ) = 1 ∧
      coolingProgress (1 : ℚ) COOL_RATE_RISER = 0.8 ∧
      coolingProgress (1 : ℚ) COOL_RATE_PART = 0.5 ∧
      ¬ (coolingProgress (1 : ℚ) COOL_RATE_RISER ≤ coolingProgress 1 COOL_RATE_PART) := by
  simp only [solidificationPhase, coolingProgress, COOL_RATE_RISER, COOL_RATE_PART]
  norm_num

/-- C5 (amended). For every solidification phase `s` in `[0,1]` the riser cooling progress
is at most that of the sprue and of the runner and at least that of the part; for `s > 0`
the part is strictly behind the riser. -/
theorem riser_between {K : Type} [LinearOrderedField K] (s : K) (h0 : 0 ≤ s) (h1 : s ≤ 1) :
    coolingProgress s COOL_RATE_RISER ≤ coolingProgress s COOL_RATE_SPRUE ∧
      coolingProgress s COOL_RATE_RISER ≤ coolingProgress s COOL_RATE_RUNNER ∧
      coolingProgress s COOL_RATE_PART ≤ coolingProgress s COOL_RATE_RISER ∧
      (0 < s → coolingProgress s COOL_RATE_PART < coolingProgress s COOL_RATE_RISER) := by
  refine ⟨coolingProgress_mono_rate s _ _ h0 ?_, coolingProgress_mono_rate s _ _ h0 ?_,
    coolingProgress_mono_rate s _ _ h0 ?_, ?_⟩
  · norm_num [COOL_RATE_RISER, COOL_RATE_SPRUE]
  · norm_num [COOL_RATE_RISER, COOL_RATE_RUNNER]
  · norm_num [COOL_RATE_RISER, COOL_RATE_PART]
  · intro hs
    have hp : s * (0.5 : K) < 1 := by norm_num; linarith
    have hr : s * (0.8 : K) < 1 := by norm_num; linarith
    simp only [coolingProgress, COOL_RATE_PART, COOL_RATE_RISER]
    rw [min_eq_left hp.le, min_eq_left hr.le]
    exact mul_lt_mul_of_pos_left (by norm_num) hs

/-- Witness for the amended C5 at `s = 1 / 2`. -/
theorem riser_between_witness :
    ((0 : ℚ) ≤ 1 / 2 ∧ (1 / 2 : ℚ) ≤ 1) ∧
      (coolingProgress (1 / 2 : ℚ) COOL_RATE_RISER ≤ coolingProgress (1 / 2) COOL_RATE_SPRUE ∧
        coolingProgress (1 / 2 : ℚ) COOL_RATE_RISER ≤ coolingProgress (1 / 2) COOL_RATE_RUNNER ∧
        coolingProgress (1 / 2 : ℚ) COOL_RATE_PART ≤ coolingProgress (1 / 2) COOL_RATE_RISER ∧
        ((0 : ℚ) < 1 / 2 →
          coolingProgress (1 / 2 : ℚ) COOL_RATE_PART < coolingProgress (1 / 2) COOL_RATE_RISER)) :=
  ⟨⟨by norm_num, by norm_num⟩, riser_between (1 / 2) (by norm_num) (by norm_num)⟩

/-- C6. Chvorinov ordering: for every solidification phase `s` in `[0,1]` the sprue and the
runner have cooling progress at least that of the part and of the riser; the sprue has
cooling progress `1` exactly from `s = 0.4` on and the runner exactly from `s = 0.5` on;
at `s = 0.4` and at `s = 0.5` the part and the riser are still below `1`. -/
theorem chvorinov_ordering {K : Type} [LinearOrderedField K] (s : K) (h0 : 0 ≤ s)
    (h1 : s ≤ 1) :
    (coolingProgress s COOL_RATE_PART ≤ coolingProgress s COOL_RATE_SPRUE ∧
      coolingProgress s COOL_RATE_RISER ≤ coolingProgress s COOL_RATE_SPRUE ∧
      coolingProgress s COOL_RATE_PART ≤ coolingProgress s COOL_RATE_RUNNER ∧
      coolingProgress s COOL_RATE_RISER ≤ coolingProgress s COOL_RATE_RUNNER) ∧
    (coolingProgress s COOL_RATE_SPRUE = 1 ↔ 0.4 ≤ s) ∧
    (coolingProgress s COOL_RATE_RUNNER = 1 ↔ 0.5 ≤ s) ∧
    (coolingProgress (0.4 : K) COOL_RATE_PART < 1 ∧
      coolingProgress (0.4 : K) COOL_RATE_RISER < 1) ∧
    (coolingProgress (0.5 : K) COOL_RATE_PART < 1 ∧
      coolingProgress (0.5 : K) COOL_RATE_RISER < 1) := by
  have _ := h1
  refine ⟨⟨coolingProgress_mono_rate s _ _ h0 ?_, coolingProgress_mono_rate s _ _ h0 ?_,
    coolingProgress_mono_rate s _ _ h0 ?_, coolingProgress_mono_rate s _ _ h0 ?_⟩,
    ?_, ?_, ?_, ?_⟩
  · norm_num [COOL_RATE_PART, COOL_RATE_SPRUE]
  · norm_num [COOL_RATE_RISER, COOL_RATE_SPRUE]
  · norm_num [COOL_RATE_PART, COOL_RATE_RUNNER]
  · norm_num [COOL_RATE_RISER, COOL_RATE_RUNNER]
  · simp only [coolingProgress, COOL_RATE_SPRUE, min_eq_right_iff]
    constructor <;> intro h <;> norm_num at h ⊢ <;> linarith
  · simp only [coolingProgress, COOL_RATE_RUNNER, min_eq_right_iff]
    constructor <;> intro h <;> norm_num at h ⊢ <;> linarith
  · simp only [coolingProgress, COOL_RATE_PART, COOL_RATE_RISER]
    norm_num
  · simp only [coolingProgress, COOL_RATE_PART, COOL_RATE_RISER]
    norm_num

/-- Witness for C6 at `s = 0.4`, the phase at which the sprue is fully cooled. -/
theorem chvorinov_ordering_witness :
    ((0 : ℚ) ≤ 0.4 ∧ (0.4 : ℚ) ≤ 1) ∧
      coolingProgress (0.4 : ℚ) COOL_RATE_SPRUE = 1 ∧
      coolingProgress (0.4 : ℚ) COOL_RATE_RUNNER ≠ 1 :=
  ⟨⟨by norm_num, by norm_num⟩,
    (chvorinov_ordering (0.4 : ℚ) (by norm_num) (by norm_num)).2.1.mpr le_rfl,
    fun h => absurd ((chvorinov_ordering (0.4 : ℚ) (by norm_num) (by norm_num)).2.2.1.mp h)
      (by norm_num)⟩

end SandCastingSystem

namespace WeldingSimulator

/-- C7. Classification by `addWeldBead`: for every travel distance `d ≥ 0` from the last
bead and every `weldSpeed > 0`, the bead appended to the list is `burn-through` with size
`0.15` iff `d < 0.5 * optimal`, `undercut` with size `0.05` iff `d > 2 * optimal`, and
`good` with size `0.1` otherwise, where `optimal = 0.1 * weldSpeed`; the first two
conditions exclude each other, and the three sizes are ordered
undercut < good < burn-through. -/
theorem addWeldBead_classification {K : Type} [LinearOrderedField K]
    (distanceTo : Vector3 K → Vector3 K → K) (weldSpeed : K) (seenLength : ℕ)
    (st : WeldState K) (position : Vector3 K) (id : K)
    (hd : 0 ≤ distanceTo position st.lastPosition) (hw : 0 < weldSpeed) :
    ∃ b : Bead K,
      (addWeldBead distanceTo weldSpeed seenLength st position id).weldBeads.getLast? = some b ∧
      ((b.quality = BeadQuality.burnThrough ∧ b.size = 0.15) ↔
        distanceTo position st.lastPosition < 0.5 * (0.1 * weldSpeed)) ∧
      ((b.quality = BeadQuality.undercut ∧ b.size = 0.05) ↔
        distanceTo position st.lastPosition > 2 * (0.1 * weldSpeed)) ∧
      ((b.quality = BeadQuality.good ∧ b.size = 0.1) ↔
        (¬ distanceTo position st.lastPosition < 0.5 * (0.1 * weldSpeed) ∧
          ¬ distanceTo position st.lastPosition > 2 * (0.1 * weldSpeed))) ∧
      ¬ (distanceTo position st.lastPosition < 0.5 * (0.1 * weldSpeed) ∧
          distanceTo position st.lastPosition > 2 * (0.1 * weldSpeed)) ∧
      ((0.05 : K) < 0.1 ∧ (0.1 : K) < 0.15) := by
  have _ := hd
  refine ⟨newBead (distanceTo position st.lastPosition) weldSpeed position id, ?_, ?_⟩
  · simp [addWeldBead]
  · generalize distanceTo position st.lastPosition = d
    have e1 : optimalDistance weldSpeed * 0.5 = 0.5 * (0.1 * weldSpeed) := by
      unfold optimalDistance; ring
    have e2 : optimalDistance weldSpeed * 2 = 2 * (0.1 * weldSpeed) := by
      unfold optimalDistance; ring
    have hlt : 0.5 * (0.1 * weldSpeed) < 2 * (0.1 * weldSpeed) := by
      norm_num
      linarith
    have hex : ¬ (d < 0.5 * (0.1 * weldSpeed) ∧ d > 2 * (0.1 * weldSpeed)) := by
      rintro ⟨ha, hb⟩
      linarith
    unfold newBead
    rw [e1, e2]
    by_cases h1 : d < 0.5 * (0.1 * weldSpeed)
    · have h2 : ¬ d > 2 * (0.1 * weldSpeed) := fun hb => hex ⟨h1, hb⟩
      simp only [if_pos h1]
      refine ⟨?_, ?_, ?_, hex, by norm_num, by norm_num⟩
      · simp [h1]
      · simp [h2]
      · simp [h1]
    · by_cases h2 : d > 2 * (0.1 * weldSpeed)
      · simp only [if_neg h1, if_pos h2]
        refine ⟨?_, ?_, ?_, hex, by norm_num, by norm_num⟩
        · simp [h1]
        · simp [h2]
        · simp [h2]
      · simp only [if_neg h1, if_neg h2]
        refine ⟨?_, ?_, ?_, hex, by norm_num, by norm_num⟩
        · simp [h1]
        · simp [h2]
        · simp [h1, h2]

/-- Witness for C7: a torch on the x-axis that moved by `0.1` at `weldSpeed = 1` (distance
along the axis) adds a `good` bead of size `0.1`. -/
theorem addWeldBead_classification_witness :
    ((0 : ℚ) ≤ |(1 / 10 : ℚ) - 0| ∧ (0 : ℚ) < 1) ∧
      ∃ b : Bead ℚ,
        (addWeldBead (fun a c : Vector3 ℚ => |a.x - c.x|) (1 : ℚ) 0 initialState
          { x := 1 / 10, y := 0, z := 0 } (7 : ℚ)).weldBeads.getLast? = some b ∧
        b.quality = BeadQuality.good ∧ b.size = 0.1 := by
  have habs : |(1 / 10 : ℚ)| = 1 / 10 := abs_of_pos (by norm_num)
  refine ⟨⟨by norm_num, by norm_num⟩, ?_⟩
  obtain ⟨b, hb, _, _, hgood, _⟩ :=
    addWeldBead_classification (fun a c : Vector3 ℚ => |a.x - c.x|) (1 : ℚ) 0 initialState
      { x := 1 / 10, y := 0, z := 0 } (7 : ℚ) (abs_nonneg _) (by norm_num)
  refine ⟨b, hb, hgood.mpr ⟨?_, ?_⟩⟩
  · norm_num [initialState, habs]
  · norm_num [initialState, habs]

/-- One event keeps the bead list within `MAX_BEADS`. -/
lemma step_length_le {K : Type} [LinearOrderedField K]
    (distanceTo : Vector3 K → Vector3 K → K) (st : WeldState K) (ev : WeldEvent K)
    (h : st.weldBeads.length ≤ MAX_BEADS) :
    (step distanceTo st ev).weldBeads.length ≤ MAX_BEADS := by
  cases ev with
  | add weldSpeed position id =>
    simp only [step, addWeldBead, List.length_append, List.length_singleton]
    split
    · simp only [List.length_drop]
      have hpos : 0 < MAX_BEADS := by decide
      omega
    · omega
  | cool delta => simpa [step, coolBeads] using h
  | clear => simp [step, clearBeads]

/-- The bound of `step_length_le` along a sequence of events from any state within it. -/
lemma foldl_step_length_le {K : Type} [LinearOrderedField K]
    (distanceTo : Vector3 K → Vector3 K → K) (events : List (WeldEvent K)) :
    ∀ st : WeldState K, st.weldBeads.length ≤ MAX_BEADS →
      (events.foldl (step distanceTo) st).weldBeads.length ≤ MAX_BEADS := by
  induction events with
  | nil => intro st h; simpa using h
  | cons ev rest ih =>
    intro st h
    simpa using ih (step distanceTo st ev) (step_length_le distanceTo st ev h)

/-- C8. Bead cap: starting from the empty list, after any sequence of `addWeldBead`,
per-frame cooling and `clearBeads` events the bead list has length at most
`MAX_BEADS = 500`. -/
theorem bead_cap {K : Type} [LinearOrderedField K]
    (distanceTo : Vector3 K → Vector3 K → K) (events : List (WeldEvent K)) :
    (run distanceTo events).weldBeads.length ≤ MAX_BEADS ∧ MAX_BEADS = 500 :=
  ⟨foldl_step_length_le distanceTo events initialState (by simp [initialState]), rfl⟩

end WeldingSimulator

namespace BendingStation

/-- The springback phase stays in `[0,1]` on the progress range `[0,1]`. -/
lemma springbackPhase_mem {K : Type} [LinearOrderedField K] (p : K) (h1 : p ≤ 1) :
    0 ≤ springbackPhase p ∧ springbackPhase p ≤ 1 := by
  unfold springbackPhase
  refine ⟨le_max_right _ _, max_le ?_ zero_le_one⟩
  norm_num
  linarith

/-- C9. Springback magnitude: for every progress `p` in `[0,1]` the springback angle
`springbackPhase * 0.087` rad, shown in degrees as `springbackAngle * 180 / π`, lies
between `0` and `5` degrees, and at `p = 1` it lies between `3` and `5` degrees. -/
theorem springback_degrees_bounds (p : ℝ) (h0 : 0 ≤ p) (h1 : p ≤ 1) :
    (0 ≤ springbackDegrees p ∧ springbackDegrees p ≤ 5) ∧
      (3 ≤ springbackDegrees 1 ∧ springbackDegrees 1 ≤ 5) := by
  have _ := h0
  have hpi := Real.pi_pos
  have hlo := Real.pi_gt_d2
  have hhi := Real.pi_lt_d2
  obtain ⟨hs0, hs1⟩ := springbackPhase_mem p h1
  have hone : springbackPhase (1 : ℝ) = 1 := by
    unfold springbackPhase
    norm_num
  unfold springbackDegrees springbackAngle
  refine ⟨⟨by positivity, ?_⟩, ?_, ?_⟩
  · rw [div_le_iff₀ hpi]
    nlinarith
  · rw [hone, le_div_iff₀ hpi]
    nlinarith
  · rw [hone, div_le_iff₀ hpi]
    nlinarith

/-- Witness for C9 at `p = 3 / 4`. -/
theorem springback_degrees_bounds_witness :
    ((0 : ℝ) ≤ 3 / 4 ∧ (3 / 4 : ℝ) ≤ 1) ∧
      ((0 ≤ springbackDegrees (3 / 4) ∧ springbackDegrees (3 / 4) ≤ 5) ∧
        (3 ≤ springbackDegrees 1 ∧ springbackDegrees 1 ≤ 5)) :=
  ⟨⟨by norm_num, by norm_num⟩, springback_degrees_bounds (3 / 4) (by norm_num) (by norm_num)⟩

end BendingStation

namespace RollingMill

/-- C10. Reduction and speed-up: for every roller gap in `(0,1]`,
`reduction = (1 - h_out) * 100`, the exit velocity is the entry velocity times
`100 / (100 - reduction)` (so their quotient is `100 / (100 - reduction)` for a nonzero
speed), and at `rollerGap = 0.4` the reduction is `60` percent and the exit velocity is
exactly `2.5` times the entry velocity. -/
theorem reduction_speedup {K : Type} [LinearOrderedField K] (speed rollerGap : K)
    (hpos : 0 < rollerGap) (hle : rollerGap ≤ 1) :
    reduction rollerGap = (1 - h_out rollerGap) * 100 ∧
      outputVelocity speed rollerGap =
        inputVelocity speed * (100 / (100 - reduction rollerGap)) ∧
      (speed ≠ 0 → outputVelocity speed rollerGap / inputVelocity speed =
        100 / (100 - reduction rollerGap)) ∧
      (reduction (0.4 : K) = 60 ∧ outputVelocity speed 0.4 = 2.5 * inputVelocity speed) := by
  have _ := hle
  have hne : rollerGap ≠ 0 := ne_of_gt hpos
  have hden : (100 : K) - (1.0 - rollerGap) / 1.0 * 100 = 100 * rollerGap := by
    norm_num
    ring
  have hquot : (100 : K) / (100 * rollerGap) = 1.0 / rollerGap := by
    field_simp
    norm_num
  unfold reduction outputVelocity inputVelocity h_in h_out
  refine ⟨by norm_num, ?_, ?_, ?_, ?_⟩
  · rw [hden, hquot]
  · intro hs
    rw [hden, hquot]
    field_simp
    ring
  · norm_num
  · norm_num
    ring

/-- Witness for C10 at the default controls `speed = 1.0`, `rollerGap = 0.4`. -/
theorem reduction_speedup_witness :
    ((0 : ℚ) < 0.4 ∧ (0.4 : ℚ) ≤ 1) ∧
      outputVelocity (1.0 : ℚ) 0.4 / inputVelocity 1.0 = 100 / (100 - reduction 0.4) :=
  ⟨⟨by norm_num, by norm_num⟩,
    (reduction_speedup (1.0 : ℚ) 0.4 (by norm_num) (by norm_num)).2.2.1 (by norm_num)⟩

end RollingMill

namespace ForgingPress

/-- C11. Maximum compression is 70 percent: for every compression `c` in `[0,1]` the
deformed height lies in `[0.6, 2.0]`, it is `2.0` at `c = 0` and `0.6` at `c = 1`; hence it
is strictly positive and the divisor `π * currentHeight` inside `currentRadius` is not
zero. -/
theorem currentHeight_range (c : ℝ) (h0 : 0 ≤ c) (h1 : c ≤ 1) :
    (0.6 ≤ currentHeight c ∧ currentHeight c ≤ 2.0) ∧
      currentHeight (0 : ℝ) = 2.0 ∧ currentHeight (1 : ℝ) = 0.6 ∧
      0 < currentHeight c ∧ Real.pi * currentHeight c ≠ 0 := by
  have hpos : 0 < currentHeight c := currentHeight_pos c h1
  refine ⟨⟨?_, ?_⟩, ?_, ?_, hpos, mul_ne_zero Real.pi_ne_zero (ne_of_gt hpos)⟩
  · unfold currentHeight originalHeight
    norm_num
    linarith
  · unfold currentHeight originalHeight
    norm_num
    linarith
  · unfold currentHeight originalHeight
    norm_num
  · unfold currentHeight originalHeight
    norm_num

/-- Witness for C11 at half compression. -/
theorem currentHeight_range_witness :
    ((0 : ℝ) ≤ 1 / 2 ∧ (1 / 2 : ℝ) ≤ 1) ∧
      (0.6 ≤ currentHeight (1 / 2 : ℝ) ∧ currentHeight (1 / 2 : ℝ) ≤ 2.0) :=
  ⟨⟨by norm_num, by norm_num⟩, (currentHeight_range (1 / 2) (by norm_num) (by norm_num)).1⟩

/-- The deformed height is strictly decreasing in the compression. -/
lemma currentHeight_strictAnti {K : Type} [LinearOrderedField K] (c1 c2 : K) (h : c1 < c2) :
    currentHeight c2 < currentHeight c1 := by
  unfold currentHeight originalHeight
  norm_num
  linarith

/-- C12. Compression reduces height and increases radius: for all `c1 < c2` in `[0,1]`,
`currentHeight c2 < currentHeight c1` and `currentRadius c2 > currentRadius c1`, and
`currentRadius 0` is the original radius `0.5`. -/
theorem height_down_radius_up (c1 c2 : ℝ) (h0 : 0 ≤ c1) (h12 : c1 < c2) (h1 : c2 ≤ 1) :
    currentHeight c2 < currentHeight c1 ∧ currentRadius c2 > currentRadius c1 ∧
      currentRadius 0 = originalRadius ∧ (originalRadius : ℝ) = 0.5 := by
  have _ := h0
  have hlt : currentHeight c2 < currentHeight c1 := currentHeight_strictAnti c1 c2 h12
  have hp2 : 0 < currentHeight c2 := currentHeight_pos c2 h1
  have hpi := Real.pi_pos
  have hV : (0 : ℝ) < originalVolume := by
    unfold originalVolume originalRadius originalHeight
    positivity
  refine ⟨hlt, ?_, ?_, ?_⟩
  · unfold currentRadius
    apply Real.sqrt_lt_sqrt
    · exact div_nonneg hV.le (mul_pos hpi (lt_trans hp2 hlt)).le
    · exact div_lt_div_of_pos_left hV (mul_pos hpi hp2) (mul_lt_mul_of_pos_left hlt hpi)
  · unfold currentRadius originalVolume currentHeight originalRadius originalHeight
    have e : Real.pi * 0.5 * 0.5 * 2.0 / (Real.pi * (2.0 * (1 - 0 * 0.7))) = (0.5 : ℝ) ^ 2 := by
      field_simp
      ring
    rw [e, Real.sqrt_sq (by norm_num)]
  · unfold originalRadius
    rfl

/-- Witness for C12 between no compression and full compression. -/
theorem height_down_radius_up_witness :
    ((0 : ℝ) ≤ 0 ∧ (0 : ℝ) < 1 ∧ (1 : ℝ) ≤ 1) ∧
      (currentHeight (1 : ℝ) < currentHeight 0 ∧ currentRadius 1 > currentRadius 0) :=
  ⟨⟨le_rfl, by norm_num, le_rfl⟩,
    (height_down_radius_up 0 1 le_rfl (by norm_num) le_rfl).1,
    (height_down_radius_up 0 1 le_rfl (by norm_num) le_rfl).2.1⟩

end ForgingPress

namespace ExtrusionPress

/-- C14. Direct mode, force decreases as the billet shortens: for all progress values
`p1 < p2` in `[0,100]`, `ramForce Direct p2 < ramForce Direct p1`, and
`ramForce = basePressure + 100 * (billetLength * billetScale)`: the friction term is
proportional to the rendered remaining billet length. -/
theorem direct_force_decreases {K : Type} [LinearOrderedField K] (p1 p2 : K)
    (h0 : 0 ≤ p1) (h12 : p1 < p2) (h100 : p2 ≤ 100) :
    ramForce Mode.Direct p2 < ramForce Mode.Direct p1 ∧
      ramForce Mode.Direct p1 = basePressure + 100 * (billetLength * billetScale p1) ∧
      ramForce Mode.Direct p2 = basePressure + 100 * (billetLength * billetScale p2) ∧
      billetMeshScale Mode.Direct p1 = billetScale p1 := by
  have _ := h0
  have _ := h100
  refine ⟨?_, rfl, rfl, rfl⟩
  simp only [ramForce, frictionFactor_Direct, lengthRemaining, normalizedProgress,
    basePressure, billetLength]
  norm_num
  linarith

/-- Witness for C14 between progress `25` and progress `75`. -/
theorem direct_force_decreases_witness :
    ((0 : ℚ) ≤ 25 ∧ (25 : ℚ) < 75 ∧ (75 : ℚ) ≤ 100) ∧
      ramForce Mode.Direct (75 : ℚ) < ramForce Mode.Direct 25 :=
  ⟨⟨by norm_num, by norm_num, by norm_num⟩,
    (direct_force_decreases (25 : ℚ) 75 (by norm_num) (by norm_num) (by norm_num)).1⟩

end ExtrusionPress

namespace RollingMill

/-- The sign factor `y / |y|` is `1` for a vertex of the top face. -/
lemma div_abs_of_pos {K : Type} [LinearOrderedField K] (y : K) (h : 0 < y) : y / |y| = 1 := by
  rw [abs_of_pos h, div_self h.ne']

/-- The sign factor `y / |y|` is `-1` for a vertex of the bottom face. -/
lemma div_abs_of_neg {K : Type} [LinearOrderedField K] (y : K) (h : y < 0) : y / |y| = -1 := by
  rw [abs_of_neg h, div_neg, div_self h.ne]

/-- The displaced height is the sign factor times half the assigned thickness. -/
lemma displacedY_eq_thickness {K : Type} [LinearOrderedField K] (rollerGap sheetPosition x y : K) :
    displacedY rollerGap sheetPosition x y =
      (y / |y|) * (thickness rollerGap (worldX x sheetPosition) / 2) := by
  unfold displacedY thickness
  split_ifs <;> rfl

/-- Past the deformation zone the displaced height is the sign factor times half the gap. -/
lemma displacedY_past_zone {K : Type} [LinearOrderedField K] (rollerGap sheetPosition x y : K)
    (hx : worldX x sheetPosition > 0.5) :
    displacedY rollerGap sheetPosition x y = (y / |y|) * (rollerGap / 2) := by
  have h1 : ¬ worldX x sheetPosition < rollerX - transitionWidth := by
    unfold rollerX transitionWidth
    norm_num at hx ⊢
    linarith
  have h2 : worldX x sheetPosition > rollerX + transitionWidth := by
    unfold rollerX transitionWidth
    norm_num at hx ⊢
    exact hx
  unfold displacedY
  rw [if_neg h1, if_pos h2]
  rfl

/-- The clearance between the facing roller surfaces is the roller gap, for every gap. -/
lemma rollerClearance_eq_gap {K : Type} [LinearOrderedField K] (rollerGap : K) :
    rollerClearance rollerGap = rollerGap := by
  unfold rollerClearance topRollerY bottomRollerY rollerRadius h_out
  ring

/-- C13. The roller gap is the output thickness: for every roller gap `g` the clearance
between the facing surfaces of the two rollers (centres at `±(g / 2 + 0.4)`, radius `0.4`)
equals `g`, and every sheet vertex (original `y ≠ 0`) past the deformation zone
(`worldX > 0.5`) is placed at `g / 2` on the top face and at `-(g / 2)` on the bottom face,
so the exit thickness equals the roller gap; hence `|y| = g / 2` for every gap `g ≥ 0`, in
particular for every gap that the control supplies (`min: 0.2`, `max: 0.8`, line 141). -/
theorem roller_gap_is_exit_thickness {K : Type} [LinearOrderedField K]
    (rollerGap sheetPosition x y : K) (hy : y ≠ 0) (hx : worldX x sheetPosition > 0.5) :
    rollerClearance rollerGap = rollerGap ∧
      (0 < y → displacedY rollerGap sheetPosition x y = rollerGap / 2) ∧
      (y < 0 → displacedY rollerGap sheetPosition x y = -(rollerGap / 2)) ∧
      rollerGap / 2 - -(rollerGap / 2) = rollerGap ∧
      (0 ≤ rollerGap → |displacedY rollerGap sheetPosition x y| = rollerGap / 2) ∧
      (0.2 ≤ rollerGap → rollerGap ≤ 0.8 →
        |displacedY rollerGap sheetPosition x y| = rollerGap / 2) := by
  have hpos : 0 < y → displacedY rollerGap sheetPosition x y = rollerGap / 2 := by
    intro h
    rw [displacedY_past_zone _ _ _ _ hx, div_abs_of_pos y h, one_mul]
  have hneg : y < 0 → displacedY rollerGap sheetPosition x y = -(rollerGap / 2) := by
    intro h
    rw [displacedY_past_zone _ _ _ _ hx, div_abs_of_neg y h, neg_one_mul]
  have habs : 0 ≤ rollerGap → |displacedY rollerGap sheetPosition x y| = rollerGap / 2 := by
    intro hg
    have hhalf : 0 ≤ rollerGap / 2 := by positivity
    rcases lt_or_gt_of_ne hy with h | h
    · rw [hneg h, abs_neg, abs_of_nonneg hhalf]
    · rw [hpos h, abs_of_nonneg hhalf]
  refine ⟨rollerClearance_eq_gap rollerGap, hpos, hneg, by ring, habs, ?_⟩
  intro hlo _
  exact habs (le_trans (by norm_num) hlo)

/-- Witness for C13 at the default gap `0.4`, for a top vertex at `x = 1`. -/
theorem roller_gap_is_exit_thickness_witness :
    ((0.5 : ℚ) ≠ 0 ∧ worldX (1 : ℚ) 0 > 0.5) ∧
      rollerClearance (0.4 : ℚ) = 0.4 ∧ |displacedY (0.4 : ℚ) 0 1 0.5| = 0.4 / 2 :=
  ⟨⟨by norm_num, by norm_num [worldX]⟩,
    (roller_gap_is_exit_thickness (0.4 : ℚ) 0 1 0.5 (by norm_num) (by norm_num [worldX])).1,
    (roller_gap_is_exit_thickness (0.4 : ℚ) 0 1 0.5 (by norm_num)
      (by norm_num [worldX])).2.2.2.2.1 (by norm_num)⟩

end RollingMill

namespace RollingMill

/-- The interpolation of lines 216 and 217 written in terms of `worldX + 0.5`. -/
lemma interpolatedThickness_eq {K : Type} [LinearOrderedField K] (rollerGap wx : K) :
    interpolatedThickness rollerGap wx = h_in + (h_out rollerGap - h_in) * (wx + 0.5) := by
  unfold interpolatedThickness rollerX transitionWidth
  norm_num

/-- For a gap that does not exceed the entry thickness, the three branches clamp the
interpolation line between the exit and the entry thickness. -/
lemma thickness_eq_clamp {K : Type} [LinearOrderedField K] (rollerGap wx : K)
    (hle : rollerGap ≤ 1) :
    thickness rollerGap wx = max rollerGap (min 1 (1 + (rollerGap - 1) * (wx + 0.5))) := by
  unfold thickness
  rw [interpolatedThickness_eq]
  unfold rollerX transitionWidth h_in h_out
  norm_num
  split_ifs with h1 h2
  · have : (1 : K) ≤ 1 + (rollerGap - 1) * (wx + 1 / 2) := by nlinarith
    rw [min_eq_left this, max_eq_right hle]
  · have hlt : 1 + (rollerGap - 1) * (wx + 1 / 2) ≤ rollerGap := by nlinarith
    rw [min_eq_right (le_trans hlt hle), max_eq_left hlt]
  · have ha : 1 + (rollerGap - 1) * (wx + 1 / 2) ≤ 1 := by
      push_neg at h1
      nlinarith
    have hb : rollerGap ≤ 1 + (rollerGap - 1) * (wx + 1 / 2) := by
      push_neg at h2
      nlinarith
    rw [min_eq_right ha, max_eq_right hb]

/-- The interpolation line decreases with the world position when the gap does not exceed
the entry thickness. -/
lemma clamp_line_antitone {K : Type} [LinearOrderedField K] (rollerGap a b : K)
    (hle : rollerGap ≤ 1) (hab : a ≤ b) :
    1 + (rollerGap - 1) * (b + 0.5) ≤ 1 + (rollerGap - 1) * (a + 0.5) := by
  have h : (rollerGap - 1) * (b + 0.5) ≤ (rollerGap - 1) * (a + 0.5) :=
    mul_le_mul_of_nonpos_left (by linarith) (by linarith)
  linarith

/-- C16. Thickness profile: for every sheet position and every roller gap with
`h_out ≤ h_in = 1`, the thickness assigned to a vertex is `h_in` for `worldX < -0.5`,
`h_out` for `worldX > 0.5` and `h_in + (h_out - h_in) * (worldX + 0.5)` in between; as a
function of `worldX` it is continuous at `-0.5` and at `0.5`, non-increasing and always
within `[h_out, h_in]`; and for a positive gap, so for every gap that the control supplies
(`min: 0.2`, `max: 0.8`, line 141), each vertex with original `y ≠ 0` keeps the sign of
`y`. -/
theorem thickness_profile (rollerGap sheetPosition x y : ℝ) (hle : h_out rollerGap ≤ h_in) :
    displacedY rollerGap sheetPosition x y =
        (y / |y|) * (thickness rollerGap (worldX x sheetPosition) / 2) ∧
      (∀ wx : ℝ, wx < -0.5 → thickness rollerGap wx = h_in) ∧
      (∀ wx : ℝ, wx > 0.5 → thickness rollerGap wx = h_out rollerGap) ∧
      (∀ wx : ℝ, -0.5 ≤ wx → wx ≤ 0.5 →
        thickness rollerGap wx = h_in + (h_out rollerGap - h_in) * (wx + 0.5)) ∧
      (ContinuousAt (thickness rollerGap) (-0.5) ∧ ContinuousAt (thickness rollerGap) 0.5) ∧
      (∀ a b : ℝ, a ≤ b → thickness rollerGap b ≤ thickness rollerGap a) ∧
      (∀ wx : ℝ, h_out rollerGap ≤ thickness rollerGap wx ∧ thickness rollerGap wx ≤ h_in) ∧
      (0 < rollerGap → y ≠ 0 →
        (0 < y → 0 < displacedY rollerGap sheetPosition x y) ∧
        (y < 0 → displacedY rollerGap sheetPosition x y < 0)) ∧
      (0.2 ≤ rollerGap → rollerGap ≤ 0.8 → y ≠ 0 →
        (0 < y → 0 < displacedY rollerGap sheetPosition x y) ∧
        (y < 0 → displacedY rollerGap sheetPosition x y < 0)) := by
  have hle1 : rollerGap ≤ 1 := by
    have h := hle
    unfold h_out h_in at h
    norm_num at h
    exact h
  have hclamp : thickness rollerGap =
      fun wx => max rollerGap (min 1 (1 + (rollerGap - 1) * (wx + 0.5))) := by
    funext wx
    exact thickness_eq_clamp rollerGap wx hle1
  have hcont : Continuous (thickness rollerGap) := by
    rw [hclamp]
    exact continuous_const.max (continuous_const.min
      (continuous_const.add (continuous_const.mul (continuous_id.add continuous_const))))
  have hbounds : ∀ wx : ℝ,
      h_out rollerGap ≤ thickness rollerGap wx ∧ thickness rollerGap wx ≤ h_in := by
    intro wx
    rw [hclamp]
    unfold h_out h_in
    refine ⟨le_max_left _ _, max_le ?_ ?_⟩
    · norm_num
      exact hle1
    · norm_num
  have hsign : 0 < rollerGap → y ≠ 0 →
      (0 < y → 0 < displacedY rollerGap sheetPosition x y) ∧
      (y < 0 → displacedY rollerGap sheetPosition x y < 0) := by
    intro hpos _
    have hthick : 0 < thickness rollerGap (worldX x sheetPosition) :=
      lt_of_lt_of_le hpos (hbounds _).1
    rw [displacedY_eq_thickness]
    constructor
    · intro h
      rw [div_abs_of_pos y h, one_mul]
      positivity
    · intro h
      rw [div_abs_of_neg y h]
      linarith
  refine ⟨displacedY_eq_thickness _ _ _ _, ?_, ?_, ?_, ⟨hcont.continuousAt, hcont.continuousAt⟩,
    ?_, hbounds, hsign, ?_⟩
  · intro wx h
    have h1 : wx < rollerX - transitionWidth := by
      unfold rollerX transitionWidth
      norm_num at h ⊢
      exact h
    unfold thickness
    rw [if_pos h1]
  · intro wx h
    have h1 : ¬ wx < rollerX - transitionWidth := by
      unfold rollerX transitionWidth
      norm_num at h ⊢
      linarith
    have h2 : wx > rollerX + transitionWidth := by
      unfold rollerX transitionWidth
      norm_num at h ⊢
      exact h
    unfold thickness
    rw [if_neg h1, if_pos h2]
  · intro wx hlo hhi
    have h1 : ¬ wx < rollerX - transitionWidth := by
      unfold rollerX transitionWidth
      norm_num at hlo ⊢
      exact hlo
    have h2 : ¬ wx > rollerX + transitionWidth := by
      unfold rollerX transitionWidth
      norm_num at hhi ⊢
      exact hhi
    unfold thickness
    rw [if_neg h1, if_neg h2, interpolatedThickness_eq]
  · intro a b hab
    rw [hclamp]
    exact max_le_max le_rfl (min_le_min le_rfl (clamp_line_antitone rollerGap a b hle1 hab))
  · intro hlo _ hy0
    exact hsign (lt_of_lt_of_le (by norm_num) hlo) hy0

/-- Witness for C16 at the default gap `0.4`, for a top vertex in the middle of the
deformation zone. -/
theorem thickness_profile_witness :
    (h_out (0.4 : ℝ) ≤ h_in) ∧
      thickness (0.4 : ℝ) 0 = h_in + (h_out 0.4 - h_in) * (0 + 0.5) ∧
      (0 : ℝ) < displacedY 0.4 0 0 0.5 :=
  ⟨by norm_num [h_out, h_in],
    (thickness_profile 0.4 0 0 0.5 (by norm_num [h_out, h_in])).2.2.2.1 0
      (by norm_num) (by norm_num),
    ((thickness_profile 0.4 0 0 0.5 (by norm_num [h_out, h_in])).2.2.2.2.2.2.2.1
      (by norm_num) (by norm_num)).1 (by norm_num)⟩

end RollingMill

namespace BarrelledCylinder

/-- The cosine of `atan2 z x` is `x / distance` away from the axis. -/
lemma cos_atan2 (x z : ℝ) (hd : 0 < distance x z) :
    Real.cos (atan2 z x) = x / distance x z := by
  have hne : (⟨x, z⟩ : ℂ) ≠ 0 := by
    intro h
    have hx : x = 0 := congrArg Complex.re h
    have hz : z = 0 := congrArg Complex.im h
    rw [hx, hz] at hd
    simp [distance] at hd
  unfold atan2 distance
  rw [Complex.cos_arg hne, Complex.abs_apply, Complex.normSq_mk]

/-- The sine of `atan2 z x` is `z / distance`. -/
lemma sin_atan2 (x z : ℝ) : Real.sin (atan2 z x) = z / distance x z := by
  unfold atan2 distance
  rw [Complex.sin_arg, Complex.abs_apply, Complex.normSq_mk]

/-- The expansion factor in the form `1 + 0.3 * c * (1 - |y| / (height / 2))`. -/
lemma expansion_factor_eq {K : Type} [LinearOrderedField K] (c height y : K)
    (hh : 0 < height) :
    1 + expansionDueToBarrel c height y = 1 + 0.3 * c * (1 - |y| / (height / 2)) := by
  unfold expansionDueToBarrel barrelFactor normalizedY
  rw [abs_div, abs_of_pos (half_pos hh)]
  ring

/-- The radial distance of a point `(x / d) * r, (z / d) * r` with `d` the distance of
`(x, z)` from the axis is `r`. -/
lemma distance_scaled (x z r : ℝ) (hd : 0 < distance x z) (hr : 0 ≤ r) :
    distance (x / distance x z * r) (z / distance x z * r) = r := by
  have hsq : distance x z ^ 2 = x * x + z * z := by
    unfold distance
    exact Real.sq_sqrt (by nlinarith [mul_self_nonneg x, mul_self_nonneg z])
  have hne : distance x z ≠ 0 := ne_of_gt hd
  have e : x / distance x z * r * (x / distance x z * r) +
      z / distance x z * r * (z / distance x z * r) = r ^ 2 := by
    field_simp
    have hsq2 : distance x z * distance x z = x * x + z * z := by
      rw [← hsq]
      ring
    rw [hsq2]
    ring
  show Real.sqrt _ = r
  rw [e, Real.sqrt_sq hr]

/-- C15. Barrelling: for every compression `c` in `[0,1]` and every original vertex
`(x, y, z)` of a cylinder of height `height > 0` with `|y| ≤ height / 2` and radial distance
`d = sqrt (x² + z²) > 0.001`, the displaced vertex keeps its `y` and its direction
`(x, z) / d` and has radial distance `d * (1 + 0.3 * c * (1 - |y| / (height / 2)))`; this
factor is `1` on the top and bottom faces, is largest, `1 + 0.3 * c`, at mid-height `y = 0`,
and is non-increasing in `|y|`; a vertex with `d ≤ 0.001` is left unchanged. -/
theorem barrelling (c height x y z : ℝ) (hc0 : 0 ≤ c) (hc1 : c ≤ 1) (hh : 0 < height)
    (hy : |y| ≤ height / 2) :
    (distance x z > 0.001 →
      (displace c height (x, y, z)).2.1 = y ∧
      (displace c height (x, y, z)).1 =
        x / distance x z * (distance x z * (1 + 0.3 * c * (1 - |y| / (height / 2)))) ∧
      (displace c height (x, y, z)).2.2 =
        z / distance x z * (distance x z * (1 + 0.3 * c * (1 - |y| / (height / 2)))) ∧
      distance (displace c height (x, y, z)).1 (displace c height (x, y, z)).2.2 =
        distance x z * (1 + 0.3 * c * (1 - |y| / (height / 2)))) ∧
    (distance x z ≤ 0.001 → displace c height (x, y, z) = (x, y, z)) ∧
    (|y| = height / 2 → 1 + expansionDueToBarrel c height y = 1) ∧
    1 + expansionDueToBarrel c height 0 = 1 + 0.3 * c ∧
    1 + expansionDueToBarrel c height y ≤ 1 + expansionDueToBarrel c height 0 ∧
    (∀ y1 y2 : ℝ, |y1| ≤ |y2| →
      1 + expansionDueToBarrel c height y2 ≤ 1 + expansionDueToBarrel c height y1) := by
  have _ := hc1
  have hhalf : 0 < height / 2 := half_pos hh
  have hmono : ∀ y1 y2 : ℝ, |y1| ≤ |y2| →
      1 + expansionDueToBarrel c height y2 ≤ 1 + expansionDueToBarrel c height y1 := by
    intro y1 y2 h12
    rw [expansion_factor_eq c height y2 hh, expansion_factor_eq c height y1 hh]
    have hdiv : |y1| / (height / 2) ≤ |y2| / (height / 2) :=
      div_le_div_of_nonneg_right h12 hhalf.le
    have hc3 : 0 ≤ 0.3 * c := by positivity
    nlinarith
  have hratio : |y| / (height / 2) ≤ 1 := (div_le_one hhalf).mpr hy
  have hfac : 1 ≤ 1 + 0.3 * c * (1 - |y| / (height / 2)) := by
    have hc3 : 0 ≤ 0.3 * c := by positivity
    nlinarith
  refine ⟨?_, ?_, ?_, ?_, ?_, hmono⟩
  · intro hd
    have hdpos : 0 < distance x z := lt_trans (by norm_num) hd
    have hr : 0 ≤ distance x z * (1 + 0.3 * c * (1 - |y| / (height / 2))) :=
      mul_nonneg hdpos.le (le_trans zero_le_one hfac)
    have hx : (displace c height (x, y, z)).1 =
        x / distance x z * (distance x z * (1 + 0.3 * c * (1 - |y| / (height / 2)))) := by
      unfold displace
      simp only [if_pos hd]
      rw [cos_atan2 x z hdpos]
      unfold newRadius
      rw [expansion_factor_eq c height y hh]
    have hz : (displace c height (x, y, z)).2.2 =
        z / distance x z * (distance x z * (1 + 0.3 * c * (1 - |y| / (height / 2)))) := by
      unfold displace
      simp only [if_pos hd]
      rw [sin_atan2 x z]
      unfold newRadius
      rw [expansion_factor_eq c height y hh]
    refine ⟨?_, hx, hz, ?_⟩
    · unfold displace
      simp only [if_pos hd]
    · rw [hx, hz]
      exact distance_scaled x z _ hdpos hr
  · intro hd
    unfold displace
    simp only [if_neg (not_lt.mpr hd)]
  · intro htop
    rw [expansion_factor_eq c height y hh, htop, div_self hhalf.ne']
    ring
  · rw [expansion_factor_eq c height 0 hh]
    simp
  · exact hmono 0 y (by simp)

/-- Witness for C15 on the workpiece of height `2` under full compression: the factor is
`1` on the top face `y = 1` and `1 + 0.3` at mid-height. -/
theorem barrelling_witness :
    ((0 : ℝ) ≤ 1 ∧ (1 : ℝ) ≤ 1 ∧ (0 : ℝ) < 2 ∧ |(1 : ℝ)| ≤ 2 / 2) ∧
      1 + expansionDueToBarrel (1 : ℝ) 2 1 = 1 ∧
      1 + expansionDueToBarrel (1 : ℝ) 2 0 = 1 + 0.3 * 1 :=
  ⟨⟨by norm_num, le_rfl, by norm_num, by norm_num⟩,
    (barrelling 1 2 (1 / 2) 1 0 (by norm_num) le_rfl (by norm_num) (by norm_num)).2.2.1
      (by norm_num),
    (barrelling 1 2 (1 / 2) 1 0 (by norm_num) le_rfl (by norm_num) (by norm_num)).2.2.2.1⟩

end BarrelledCylinder

namespace FrictionHeatParticles

/-- On a buffer of `particleCount` particles an active frame updates every particle. -/
lemma frame_active_eq_map {K : Type} [LinearOrderedField K] (delta : K)
    (positions : List (K × K × K)) (hlen : positions.length = particleCount) :
    frame true delta positions = positions.map (riseParticle delta) := by
  unfold frame
  simp only [if_true]
  rw [List.take_of_length_le (le_of_eq hlen), List.drop_eq_nil_of_le (le_of_eq hlen),
    List.append_nil]

/-- A rising particle never leaves the band `[-1.5, 1.5]`. -/
lemma riseParticle_band {K : Type} [LinearOrderedField K] (delta : K) (v : K × K × K)
    (hdelta : 0 ≤ delta) (hv : -1.5 ≤ v.2.1 ∧ v.2.1 ≤ 1.5) :
    -1.5 ≤ (riseParticle delta v).2.1 ∧ (riseParticle delta v).2.1 ≤ 1.5 := by
  unfold riseParticle
  simp only
  split_ifs with h
  · constructor <;> norm_num
  · push_neg at h
    refine ⟨?_, h⟩
    have : 0 ≤ delta * 0.5 := by positivity
    linarith [hv.1]

/-- The invariant of the particle buffer: its size, the band of the heights and the
horizontal coordinates of a reference buffer. -/
lemma frame_invariant {K : Type} [LinearOrderedField K] (active : Bool) (delta : K)
    (reference positions : List (K × K × K)) (hdelta : 0 ≤ delta)
    (hlen : positions.length = particleCount)
    (hband : ∀ v ∈ positions, -1.5 ≤ v.2.1 ∧ v.2.1 ≤ 1.5)
    (hxz : positions.map (fun v => (v.1, v.2.2)) = reference.map (fun v => (v.1, v.2.2))) :
    (frame active delta positions).length = particleCount ∧
      (∀ v ∈ frame active delta positions, -1.5 ≤ v.2.1 ∧ v.2.1 ≤ 1.5) ∧
      (frame active delta positions).map (fun v => (v.1, v.2.2)) =
        reference.map (fun v => (v.1, v.2.2)) := by
  cases active with
  | false => exact ⟨hlen, hband, hxz⟩
  | true =>
    rw [frame_active_eq_map delta positions hlen]
    refine ⟨by simpa using hlen, ?_, ?_⟩
    · intro v hv
      obtain ⟨w, hw, rfl⟩ := List.mem_map.mp hv
      exact riseParticle_band delta w hdelta (hband w hw)
    · rw [← hxz, List.map_map]
      rfl

/-- The invariant of `frame_invariant` along a sequence of frames with `delta ≥ 0`. -/
lemma runFrames_invariant {K : Type} [LinearOrderedField K] (reference : List (K × K × K))
    (frames : List (Bool × K)) :
    ∀ positions : List (K × K × K), (∀ f ∈ frames, 0 ≤ f.2) →
      positions.length = particleCount →
      (∀ v ∈ positions, -1.5 ≤ v.2.1 ∧ v.2.1 ≤ 1.5) →
      positions.map (fun v => (v.1, v.2.2)) = reference.map (fun v => (v.1, v.2.2)) →
      (runFrames frames positions).length = particleCount ∧
        (∀ v ∈ runFrames frames positions, -1.5 ≤ v.2.1 ∧ v.2.1 ≤ 1.5) ∧
        (runFrames frames positions).map (fun v => (v.1, v.2.2)) =
          reference.map (fun v => (v.1, v.2.2)) := by
  induction frames with
  | nil =>
    intro positions _ hlen hband hxz
    exact ⟨hlen, hband, hxz⟩
  | cons f rest ih =>
    intro positions hdelta hlen hband hxz
    obtain ⟨h1, h2, h3⟩ := frame_invariant f.1 f.2 reference positions
      (hdelta f (List.mem_cons_self f rest)) hlen hband hxz
    exact ih (frame f.1 f.2 positions)
      (fun g hg => hdelta g (List.mem_cons_of_mem f hg)) h1 h2 h3

/-- The initial heights lie in `[-1, 1)` when `Math.random()` returns values in `[0, 1)`. -/
lemma initialPositions_band (rand : ℕ → ℝ) (hrand : ∀ n, 0 ≤ rand n ∧ rand n < 1) :
    ∀ v ∈ initialPositions rand, -1 ≤ v.2.1 ∧ v.2.1 < 1 := by
  intro v hv
  obtain ⟨i, _, rfl⟩ := List.mem_map.mp hv
  obtain ⟨h0, h1⟩ := hrand (2 * i + 1)
  unfold initialParticle
  simp only
  constructor <;> norm_num <;> linarith

/-- C17. Recycle on bounds: the buffer always holds exactly `40` particles; an active
frame with `delta ≥ 0` adds `0.5 * delta` to the height of each particle and resets it to
`-1.5` when it exceeds `1.5`; starting from the initial heights in `[-1, 1)`, after any
sequence of frames every height stays within `[-1.5, 1.5]` and the `x` and `z` of every
particle are those of the initial buffer; an inactive frame changes nothing. -/
theorem recycle_on_bounds (rand : ℕ → ℝ) (hrand : ∀ n, 0 ≤ rand n ∧ rand n < 1)
    (frames : List (Bool × ℝ)) (hdelta : ∀ f ∈ frames, 0 ≤ f.2) :
    (initialPositions rand).length = 40 ∧
      (∀ v ∈ initialPositions rand, -1 ≤ v.2.1 ∧ v.2.1 < 1) ∧
      (runFrames frames (initialPositions rand)).length = 40 ∧
      (∀ v ∈ runFrames frames (initialPositions rand), -1.5 ≤ v.2.1 ∧ v.2.1 ≤ 1.5) ∧
      (runFrames frames (initialPositions rand)).map (fun v => (v.1, v.2.2)) =
        (initialPositions rand).map (fun v => (v.1, v.2.2)) ∧
      (∀ (delta : ℝ) (positions : List (ℝ × ℝ × ℝ)), positions.length = 40 →
        frame true delta positions = positions.map
          (fun v => (v.1, if v.2.1 + 0.5 * delta > 1.5 then -1.5 else v.2.1 + 0.5 * delta,
            v.2.2))) ∧
      (∀ (delta : ℝ) (positions : List (ℝ × ℝ × ℝ)), frame false delta positions = positions) := by
  have hlen : (initialPositions rand).length = particleCount := by
    simp [initialPositions]
  have hinit := initialPositions_band rand hrand
  have hband : ∀ v ∈ initialPositions rand, -1.5 ≤ v.2.1 ∧ v.2.1 ≤ 1.5 := by
    intro v hv
    obtain ⟨h0, h1⟩ := hinit v hv
    constructor
    · norm_num
      linarith
    · norm_num
      linarith
  obtain ⟨h1, h2, h3⟩ := runFrames_invariant (initialPositions rand) frames
    (initialPositions rand) hdelta hlen hband rfl
  refine ⟨hlen, hinit, h1, h2, h3, ?_, ?_⟩
  · intro delta positions hp
    rw [frame_active_eq_map delta positions hp]
    apply List.map_congr_left
    intro v _
    unfold riseParticle
    rw [mul_comm delta 0.5]
  · intro delta positions
    rfl

/-- Witness for C17: random values all equal to `1/2` and two frames, an active one of
`0.016` seconds and an inactive one. -/
theorem recycle_on_bounds_witness :
    ((∀ n : ℕ, (0 : ℝ) ≤ (fun _ => (1 / 2 : ℝ)) n ∧ (fun _ => (1 / 2 : ℝ)) n < 1) ∧
      ∀ f ∈ [(true, (0.016 : ℝ)), (false, (0.016 : ℝ))], 0 ≤ f.2) ∧
      (runFrames [(true, (0.016 : ℝ)), (false, (0.016 : ℝ))]
        (initialPositions (fun _ => (1 / 2 : ℝ)))).length = 40 := by
  have hr : ∀ n : ℕ, (0 : ℝ) ≤ (fun _ => (1 / 2 : ℝ)) n ∧ (fun _ => (1 / 2 : ℝ)) n < 1 := by
    intro n
    norm_num
  have hf : ∀ f ∈ [(true, (0.016 : ℝ)), (false, (0.016 : ℝ))], 0 ≤ f.2 := by
    intro f hf
    simp only [List.mem_cons, List.mem_singleton, List.not_mem_nil, or_false] at hf
    rcases hf with rfl | rfl <;> norm_num
  exact ⟨⟨hr, hf⟩, (recycle_on_bounds (fun _ => (1 / 2 : ℝ)) hr _ hf).2.2.1⟩

end FrictionHeatParticles

namespace SpinningStation

/-- The roller parameter stays in `[0, 1]` at every time. -/
lemma rollerT_mem (elapsedTime : ℝ) : 0 ≤ rollerT elapsedTime ∧ rollerT elapsedTime ≤ 1 := by
  unfold rollerT
  have h1 := Real.neg_one_le_sin (elapsedTime * 1.5)
  have h2 := Real.sin_le_one (elapsedTime * 1.5)
  constructor
  · linarith
  · linarith

/-- The profile in closed form. -/
lemma profile_closed_form {K : Type} [LinearOrderedField K] (p t : K) :
    currentRadius p t = 1.5 - 0.9 * t * p ∧ currentHeight p t = 2 * t * p := by
  unfold currentRadius currentHeight flatRadius coneRadius coneHeight height
  constructor
  · norm_num
    ring
  · ring

/-- The profile stays in the box `[0.6, 1.5] × [0, 2]` for `p` and `t` in `[0, 1]`. -/
lemma profile_bounds {K : Type} [LinearOrderedField K] (p t : K) (hp0 : 0 ≤ p) (hp1 : p ≤ 1)
    (ht0 : 0 ≤ t) (ht1 : t ≤ 1) :
    (0.6 ≤ currentRadius p t ∧ currentRadius p t ≤ 1.5) ∧
      (0 ≤ currentHeight p t ∧ currentHeight p t ≤ 2) := by
  have h0 : 0 ≤ t * p := mul_nonneg ht0 hp0
  have h1 : t * p ≤ 1 := by
    calc t * p ≤ 1 * 1 := mul_le_mul ht1 hp1 hp0 zero_le_one
      _ = 1 := one_mul 1
  obtain ⟨hr, hh⟩ := profile_closed_form p t
  rw [hr, hh]
  refine ⟨⟨?_, ?_⟩, ?_, ?_⟩
  · norm_num
    linarith
  · norm_num
    linarith
  · linarith
  · linarith

/-- C18. The roller follows the surface: for every progress `p` in `[0,1]` and every
`rollerT` in `[0,1]`, the roller contact point `(rollerRadius, rollerHeight)` is
`(1.5 - 0.9 * rollerT * p, 2 * rollerT * p)` and equals the lathe profile point
`(currentRadius, currentHeight)` at the parameter `t = rollerT`; the profile has every
point at `(1.5, 0)` when `p = 0`; and all profile radii stay within `[0.6, 1.5]` and all
heights within `[0, 2]`, for every parameter in `[0,1]` and for every point of the list
handed to the lathe geometry. -/
theorem roller_follows_profile {K : Type} [LinearOrderedField K] (p rollerT : K)
    (hp0 : 0 ≤ p) (hp1 : p ≤ 1) (ht0 : 0 ≤ rollerT) (ht1 : rollerT ≤ 1) :
    (rollerRadius p rollerT, rollerHeight p rollerT) =
        (1.5 - 0.9 * rollerT * p, 2 * rollerT * p) ∧
      (rollerRadius p rollerT, rollerHeight p rollerT) = profilePoint p rollerT ∧
      (∀ t : K, profilePoint 0 t = (1.5, 0)) ∧
      (∀ pt ∈ lathePoints (0 : K), pt = (1.5, 0)) ∧
      ((0.6 ≤ currentRadius p rollerT ∧ currentRadius p rollerT ≤ 1.5) ∧
        (0 ≤ currentHeight p rollerT ∧ currentHeight p rollerT ≤ 2)) ∧
      (∀ pt ∈ lathePoints p, (0.6 ≤ pt.1 ∧ pt.1 ≤ 1.5) ∧ (0 ≤ pt.2 ∧ pt.2 ≤ 2)) := by
  have hzero : ∀ t : K, profilePoint 0 t = (1.5, 0) := by
    intro t
    obtain ⟨hr, hh⟩ := profile_closed_form (0 : K) t
    unfold profilePoint
    rw [hr, hh]
    norm_num
  obtain ⟨hr, hh⟩ := profile_closed_form p rollerT
  refine ⟨?_, ?_, hzero, ?_, profile_bounds p rollerT hp0 hp1 ht0 ht1, ?_⟩
  · unfold rollerRadius rollerHeight
    rw [Prod.mk.injEq]
    constructor <;> ring
  · unfold profilePoint rollerRadius rollerHeight
    rw [hr, hh, Prod.mk.injEq]
    constructor <;> ring
  · intro pt hpt
    obtain ⟨i, _, rfl⟩ := List.mem_map.mp hpt
    exact hzero _
  · intro pt hpt
    obtain ⟨i, hi, rfl⟩ := List.mem_map.mp hpt
    have hi20 : i ≤ 20 := by
      have := List.mem_range.mp hi
      unfold segments at this
      omega
    have hiK : (i : K) ≤ 20 := by exact_mod_cast hi20
    have hs : ((segments : ℕ) : K) = 20 := by
      unfold segments
      norm_num
    have ht0i : (0 : K) ≤ (i : K) / (segments : K) := by
      rw [hs]
      positivity
    have ht1i : (i : K) / (segments : K) ≤ 1 := by
      rw [hs, div_le_one (by norm_num)]
      exact hiK
    exact profile_bounds p _ hp0 hp1 ht0i ht1i

/-- Witness for C18 at `p = 1/2` and `rollerT = 1/2`. -/
theorem roller_follows_profile_witness :
    ((0 : ℚ) ≤ 1 / 2 ∧ (1 / 2 : ℚ) ≤ 1 ∧ (0 : ℚ) ≤ 1 / 2 ∧ (1 / 2 : ℚ) ≤ 1) ∧
      (rollerRadius (1 / 2 : ℚ) (1 / 2), rollerHeight (1 / 2 : ℚ) (1 / 2)) =
        profilePoint (1 / 2) (1 / 2) :=
  ⟨⟨by norm_num, by norm_num, by norm_num, by norm_num⟩,
    (roller_follows_profile (1 / 2 : ℚ) (1 / 2) (by norm_num) (by norm_num) (by norm_num)
      (by norm_num)).2.1⟩

end SpinningStation
